import Mathlib

/-!
Verification of the path-computation core in
src/inlanecruising_plugin/src/calculation.cpp.

The C++ functions are embedded shallowly over the real numbers:
doubles become elements of the real field, std::vector becomes List, and
functions whose C++ executions can throw, read out of bounds, or fail to
terminate are given Option/Except result types, with the abnormal outcome
mapped to none / Except.error.  External collaborators that are not part
of src/ (the lanelet2 geometry helpers, the cav_msgs message types, the
tk::spline interpolant and the world model) are modelled from the
specification and say so in their doc comments.
-/

/-- A 2D position in the fixed inertial frame (lanelet::BasicPoint2d,
a pair of doubles, modelled as a pair of reals). -/
abbrev Point : Type := ℝ × ℝ

/-- A path position paired with its target speed (the PointSpeedPair of the
plugin, a std::pair of a point and a double). -/
abbrev PointSpeedPair : Type := Point × ℝ

/-- Modelled from the spec: the two fields of cav_msgs::VehicleState that this
core consumes, the global x and y position of the vehicle center of gravity. -/
structure VehicleState where
  X_pos_global : ℝ
  Y_pos_global : ℝ

/-- Modelled from the spec: the lane-following variant of a maneuver, exposing
a start distance, end distance and end speed along the referenced lanes. -/
structure LaneFollowingManeuver where
  start_dist : ℝ
  end_dist : ℝ
  end_speed : ℝ

/-- Modelled from the spec: a maneuver record exposing a numeric type
discriminant and its lane-following payload (cav_msgs::Maneuver). -/
structure Maneuver where
  type : ℕ
  lane_following_maneuver : LaneFollowingManeuver

/-- Modelled from the spec: the LANE_FOLLOWING discriminant constant of
cav_msgs::Maneuver.  Only its identity matters to this core, which compares
maneuver discriminants against it for equality. -/
def LANE_FOLLOWING : ℕ := 1

/-- Modelled from the spec: the world model query surface used by
maneuvers_to_points.  routeGeometry composes getLaneletsBetween with
carma_wm::geometry::concatenate_lanelets: it maps a start and end route
distance to the concatenated centerline geometry between them. -/
structure WorldModel where
  routeGeometry : ℝ → ℝ → List Point

/-- Modelled from the spec: the FittedCurve (tk::spline) is an opaque smooth
interpolant, a pure function of its control points; it is represented here by
the control point coordinate lists handed to set_points.  The differential
estimator functions below receive it but never evaluate it. -/
structure Spline where
  points_x : List ℝ
  points_y : List ℝ

/-- Loop of maneuvers_to_points (calculation.cpp lines 46-62): walk the
maneuver list in order accumulating (point, end_speed) pairs; encountering a
maneuver whose discriminant is not LANE_FOLLOWING throws
std::invalid_argument, modelled as Except.error carrying the message. -/
def maneuversLoop (wm : WorldModel) :
    List Maneuver → List PointSpeedPair → Except String (List PointSpeedPair)
  | [], acc => Except.ok acc
  | m :: rest, acc =>
    if m.type ≠ LANE_FOLLOWING then
      Except.error "In-Lane Cruising does not support this maneuver type"
    else
      maneuversLoop wm rest
        (acc ++ (wm.routeGeometry m.lane_following_maneuver.start_dist
            m.lane_following_maneuver.end_dist).map
          fun p => (p, m.lane_following_maneuver.end_speed))

/-- Shallow embedding of maneuvers_to_points (calculation.cpp lines 41-65). -/
def maneuvers_to_points (maneuvers : List Maneuver) (wm : WorldModel) :
    Except String (List PointSpeedPair) :=
  maneuversLoop wm maneuvers []

/-- Loop of downsample_points (calculation.cpp lines 73-76):
for (int i = 0; i < points.size(); i += nth_point) push points[i].
The loop index is the C++ int i, modelled as an unbounded integer; the
comparison i < points.size() converts i to size_t, so a negative i wraps to a
value at least 2^64 - 2^31, far above any feasible vector size, and the loop
exits: the model renders that comparison as 0 ≤ i ∧ i.toNat < length.
A zero stride repeats i = 0 forever, so the loop never terminates; the fuel
argument (points.length + 2 at the entry point, enough for every terminating
execution) maps that divergence to none. -/
def downsampleLoop (points : List PointSpeedPair) (nth_point : ℤ) :
    ℕ → ℤ → List PointSpeedPair → Option (List PointSpeedPair)
  | 0, _, _ => none
  | fuel + 1, i, acc =>
    if h : 0 ≤ i ∧ i.toNat < points.length then
      downsampleLoop points nth_point fuel (i + nth_point)
        (acc ++ [points.get ⟨i.toNat, h.2⟩])
    else
      some acc

/-- Shallow embedding of downsample_points (calculation.cpp lines 67-79).
The reserve call on line 71 has no observable effect and is not modelled. -/
def downsample_points (points : List PointSpeedPair) (nth_point : ℤ) :
    Option (List PointSpeedPair) :=
  downsampleLoop points nth_point (points.length + 2) 0 []

/-- The subsequence that the specification describes for downsample_points:
the input elements at indices 0, N, 2N, ... below the input length, in their
original order.  There are ceil(length / N) = (length + N - 1) / N such
indices. -/
def downsampleSpec (points : List PointSpeedPair) (nth_point : ℤ) :
    List PointSpeedPair :=
  (List.range ((points.length + nth_point.toNat - 1) / nth_point.toNat)).map
    fun k => points.getD (k * nth_point.toNat) default

/-- Modelled from the spec: lanelet::geometry::distance2d, the Euclidean
planar distance between two points. -/
noncomputable def distance2d (p q : Point) : ℝ :=
  Real.sqrt ((p.1 - q.1) ^ 2 + (p.2 - q.2) ^ 2)

/-- The initial value of min_distance in getNearestPointIndex,
std::numeric_limits of double max, the largest finite double
(2 - 2^-52) * 2^1023. -/
noncomputable def doubleMax : ℝ := (2 - 2 ^ (-(52 : ℤ))) * 2 ^ 1023

/-- Loop of getNearestPointIndex (calculation.cpp lines 87-96): scan the
points in order, keeping the index of the strictly smallest distance seen so
far; best_index starts at 0 and min_distance at doubleMax. -/
noncomputable def nearestLoop (veh : Point) :
    List PointSpeedPair → ℕ → ℕ → ℝ → ℕ
  | [], _, best, _ => best
  | p :: rest, i, best, min_distance =>
    if distance2d p.1 veh < min_distance then
      nearestLoop veh rest (i + 1) i (distance2d p.1 veh)
    else
      nearestLoop veh rest (i + 1) best min_distance

/-- Shallow embedding of getNearestPointIndex (calculation.cpp lines 81-99). -/
noncomputable def getNearestPointIndex (points : List PointSpeedPair)
    (state : VehicleState) : ℕ :=
  nearestLoop (state.X_pos_global, state.Y_pos_global) points 0 0 doubleMax

/-- Shallow embedding of compute_fit (calculation.cpp lines 127-149).  The
first component is the boost::optional result; the second collects the
ROS_WARN_STREAM diagnostics emitted during the call (the numeric payload of
the per-point messages on line 141 is not modelled, only their presence). -/
def compute_fit (basic_points : List Point) : Option Spline × List String :=
  if basic_points.length < 3 then
    (none, ["Insufficient Spline Points"])
  else
    (some ⟨basic_points.map Prod.fst, basic_points.map Prod.snd⟩,
      basic_points.map fun _ => "basic_points[i]: ")

/-- Modelled from the spec: the C library atan2(y, x), the heading angle of
the vector (x, y) in (-pi, pi], realized as the argument of the complex
number x + y i. -/
noncomputable def atan2 (y x : ℝ) : ℝ := Complex.arg ⟨x, y⟩

/-- Shallow embedding of calculate_yaw (calculation.cpp lines 151-157):
atan2 of the forward differences. -/
noncomputable def calculate_yaw (cur_point next_point : Point) : ℝ :=
  atan2 (next_point.2 - cur_point.2) (next_point.1 - cur_point.1)

/-- Shallow embedding of calculate_curvature (calculation.cpp lines 159-171).
The chord length on line 161 is transcribed exactly as the source computes
it: pow(cur_point[0] - next_point[0], 2) + pow(cur_point[1] - next_point[0], 2),
whose second term reuses the x-component of next_point. -/
noncomputable def calculate_curvature (cur_point next_point : Point) : ℝ :=
  let dist := Real.sqrt ((cur_point.1 - next_point.1) ^ 2 +
    (cur_point.2 - next_point.1) ^ 2)
  let angle := calculate_yaw cur_point next_point
  let r := 0.5 * (dist / Real.sin angle)
  min (1 / r) 100000

/-- The per-sample curvature exactly as claim C1 words it: Euclidean distance
d between the two samples, yaw between them, radius r = 0.5 d / sin(yaw), and
the absolute value of min(1/r, 100000). -/
noncomputable def claimCurvature (cur_point next_point : Point) : ℝ :=
  let dist := Real.sqrt ((cur_point.1 - next_point.1) ^ 2 +
    (cur_point.2 - next_point.2) ^ 2)
  let angle := calculate_yaw cur_point next_point
  let r := 0.5 * (dist / Real.sin angle)
  |min (1 / r) 100000|

/-- Shallow embedding of compute_orientation_from_fit (calculation.cpp lines
173-190).  For an empty input the C++ loop bound sampling_points.size() - 1
wraps around in size_t to 2^64 - 1 and the first iteration reads
sampling_points[0] out of bounds; for a singleton input the loop runs zero
times and orientations.back() reads from an empty vector.  Both abnormal
executions are modelled as none; on a non-empty vector back() is the element
at index length - 1. -/
noncomputable def compute_orientation_from_fit (curve : Spline)
    (sampling_points : List Point) : Option (List ℝ) :=
  if sampling_points.length = 0 then none
  else
    let orientations := (List.range (sampling_points.length - 1)).map fun i =>
      calculate_yaw (sampling_points.getD i default)
        (sampling_points.getD (i + 1) default)
    if orientations = [] then none
    else some (orientations ++ [orientations.getD (orientations.length - 1) 0])

/-- Shallow embedding of compute_curvature_from_fit (calculation.cpp lines
192-211), with the same treatment of the two abnormal executions as
compute_orientation_from_fit; fabs on line 207 becomes the absolute value. -/
noncomputable def compute_curvature_from_fit (curve : Spline)
    (sampling_points : List Point) : Option (List ℝ) :=
  if sampling_points.length = 0 then none
  else
    let curvatures := (List.range (sampling_points.length - 1)).map fun i =>
      |calculate_curvature (sampling_points.getD i default)
        (sampling_points.getD (i + 1) default)|
    if curvatures = [] then none
    else some (curvatures ++ [curvatures.getD (curvatures.length - 1) 0])

/-- Claim C10: the outputs of the two differential estimator functions do not
depend on the fitted curve argument: the curve parameter is dead in both
function bodies, so any two curves give identical results. -/
theorem fit_outputs_ignore_curve (c1 c2 : Spline) (pts : List Point) :
    compute_orientation_from_fit c1 pts = compute_orientation_from_fit c2 pts ∧
    compute_curvature_from_fit c1 pts = compute_curvature_from_fit c2 pts :=
  ⟨rfl, rfl⟩

/-- Claim C7: on an empty path getNearestPointIndex does not fail; the scan
body never runs and the function silently returns the initial best_index 0,
which is not a valid index into the empty path. -/
theorem getNearestPointIndex_empty (state : VehicleState) :
    getNearestPointIndex [] state = 0 :=
  rfl

/-- Claim C8: downsample_points does not fail fast on a non-positive stride.
With stride -1 on a singleton input it silently returns the first element;
with stride 0 the loop never terminates (none here renders the inexhaustible
fuel of the diverging C++ loop). -/
theorem downsample_points_nonpositive_stride :
    downsample_points [(((0 : ℝ), (0 : ℝ)), (0 : ℝ))] (-1) =
      some [(((0 : ℝ), (0 : ℝ)), (0 : ℝ))] ∧
    downsample_points [(((0 : ℝ), (0 : ℝ)), (0 : ℝ))] 0 = none := by
  constructor
  · rfl
  · rfl

/-- Claim C9: with fewer than three points compute_fit returns the explicit
empty result together with the Insufficient Spline Points diagnostic. -/
theorem compute_fit_insufficient (pts : List Point) (h : pts.length < 3) :
    compute_fit pts = (none, ["Insufficient Spline Points"]) := by
  simp [compute_fit, h]

/-- Witness for compute_fit_insufficient at the empty input. -/
theorem compute_fit_insufficient_witness :
    compute_fit [] = (none, ["Insufficient Spline Points"]) :=
  compute_fit_insufficient [] (by simp)

/-- Claim C4: a maneuver list containing a discriminant other than
LANE_FOLLOWING makes maneuvers_to_points fail with the invalid-maneuver-type
error; no point sequence is returned. -/
theorem maneuvers_to_points_invalid_type (maneuvers : List Maneuver)
    (wm : WorldModel) (h : ∃ m ∈ maneuvers, m.type ≠ LANE_FOLLOWING) :
    maneuvers_to_points maneuvers wm =
      Except.error "In-Lane Cruising does not support this maneuver type" := by
  have loopLemma : ∀ (ms : List Maneuver) (acc : List PointSpeedPair),
      (∃ m ∈ ms, m.type ≠ LANE_FOLLOWING) →
      maneuversLoop wm ms acc =
        Except.error "In-Lane Cruising does not support this maneuver type" := by
    intro ms
    induction ms with
    | nil => rintro acc ⟨m, hm, _⟩; simp at hm
    | cons a tl ih =>
      rintro acc ⟨m, hm, hty⟩
      by_cases ha : a.type ≠ LANE_FOLLOWING
      · simp [maneuversLoop, ha]
      · have hmem : m ∈ tl := by
          rcases List.mem_cons.mp hm with h1 | h1
          · subst h1; exact absurd hty ha
          · exact h1
        simp only [maneuversLoop, ha, if_neg]
        exact ih _ ⟨m, hmem, hty⟩
  exact loopLemma maneuvers [] h

/-- Witness for maneuvers_to_points_invalid_type: a single maneuver with
discriminant 0 over a trivial world model. -/
theorem maneuvers_to_points_invalid_type_witness :
    maneuvers_to_points [⟨0, ⟨0, 0, 0⟩⟩] ⟨fun _ _ => []⟩ =
      Except.error "In-Lane Cruising does not support this maneuver type" :=
  maneuvers_to_points_invalid_type _ _ ⟨⟨0, ⟨0, 0, 0⟩⟩, by simp, by decide⟩

/-- Counting step for the downsampling loop: one iteration at a live index
consumes one of the ceil((length - i) / N) remaining pick positions. -/
lemma ceil_count_step (len i Nt : ℕ) (hNt : 1 ≤ Nt) (hi : i < len) :
    (len - i + Nt - 1) / Nt = (len - (i + Nt) + Nt - 1) / Nt + 1 := by
  rcases le_or_lt (len - i) Nt with hle | hlt
  · have h1 : len - (i + Nt) = 0 := by omega
    rw [h1]
    have h2 : (0 + Nt - 1) / Nt = 0 := Nat.div_eq_of_lt (by omega)
    rw [h2]
    exact Nat.div_eq_of_lt_le (by omega) (by omega)
  · have h1 : len - (i + Nt) + Nt - 1 = len - i - 1 := by omega
    rw [h1]
    have h2 : len - i + Nt - 1 = (len - i - 1) + Nt := by omega
    rw [h2, Nat.add_div_right _ (by omega)]

/-- Functional description of the downsampling loop for a positive stride:
started at a nonnegative index i with enough fuel, it returns the accumulator
followed by the points at indices i, i + N, i + 2N, ... below the length. -/
lemma downsampleLoop_spec (points : List PointSpeedPair) (N : ℤ) (hN : 1 ≤ N) :
    ∀ (fuel i : ℕ) (acc : List PointSpeedPair), 1 ≤ fuel →
      points.length + 1 ≤ i + fuel →
      downsampleLoop points N fuel (i : ℤ) acc =
        some (acc ++
          (List.range ((points.length - i + N.toNat - 1) / N.toNat)).map
            fun k => points.getD (i + k * N.toNat) default) := by
  intro fuel
  induction fuel with
  | zero => intro i acc h1 _; omega
  | succ f ih =>
    intro i acc _ hle
    have hNt : 1 ≤ N.toNat := by omega
    by_cases hi : i < points.length
    · have hcond : 0 ≤ (i : ℤ) ∧ ((i : ℤ)).toNat < points.length := by
        refine ⟨Int.natCast_nonneg i, by simpa using hi⟩
      rw [downsampleLoop, dif_pos hcond]
      have hcast : (i : ℤ) + N = ((i + N.toNat : ℕ) : ℤ) := by
        push_cast
        omega
      rw [hcast, ih (i + N.toNat) _ (by omega) (by omega)]
      rw [ceil_count_step points.length i N.toNat hNt hi]
      rw [List.range_succ_eq_map, List.map_cons, List.map_map]
      have hget : points.get ⟨((i : ℤ)).toNat, hcond.2⟩ =
          points.getD (i + 0 * N.toNat) default := by
        simp [List.getD_eq_getElem?_getD, List.getElem?_eq_getElem hi]
      have hfun : ((fun k => points.getD (i + k * N.toNat) default) ∘ Nat.succ) =
          fun k => points.getD (i + N.toNat + k * N.toNat) default := by
        funext k
        have : i + (k + 1) * N.toNat = i + N.toNat + k * N.toNat := by ring
        simp [Function.comp, Nat.succ_eq_add_one, this]
      rw [hget, hfun]
      simp
    · rw [downsampleLoop, dif_neg]
      · have h0 : points.length - i = 0 := by omega
        rw [h0]
        have h2 : (0 + N.toNat - 1) / N.toNat = 0 := Nat.div_eq_of_lt (by omega)
        rw [h2]
        simp
      · intro hcond
        exact hi (by simpa using hcond.2)

/-- Claim C6: for a non-empty input and stride N at least 1, downsample_points
returns exactly the input elements at indices 0, N, 2N, ... below the input
length, in order (the list downsampleSpec); consequently the first output
element is the first input element, and when the input length is at most N the
result is the singleton of the first input element. -/
theorem downsample_points_stride (points : List PointSpeedPair) (N : ℤ)
    (hne : points ≠ []) (hN : 1 ≤ N) :
    downsample_points points N = some (downsampleSpec points N) ∧
    (downsampleSpec points N).getD 0 default = points.getD 0 default ∧
    (points.length ≤ N.toNat → downsampleSpec points N = [points.getD 0 default]) := by
  have hlen : 1 ≤ points.length := List.length_pos.mpr hne
  have hNt : 1 ≤ N.toNat := by omega
  refine ⟨?_, ?_, ?_⟩
  · have h := downsampleLoop_spec points N hN (points.length + 2) 0 []
      (by omega) (by omega)
    simp only [Nat.cast_zero] at h
    rw [downsample_points, h, downsampleSpec]
    simp
  · have hc1 : 1 ≤ (points.length + N.toNat - 1) / N.toNat :=
      (Nat.one_le_div_iff (by omega)).mpr (by omega)
    obtain ⟨c, hc⟩ := Nat.exists_eq_add_of_le hc1
    rw [downsampleSpec, hc]
    rw [show 1 + c = c + 1 by omega, List.range_succ_eq_map, List.map_cons]
    simp
  · intro hle
    have hc : (points.length + N.toNat - 1) / N.toNat = 1 :=
      Nat.div_eq_of_lt_le (by omega) (by omega)
    rw [downsampleSpec, hc]
    simp [List.range_succ]

/-- Witness for downsample_points_stride: a three point path with stride 2. -/
theorem downsample_points_stride_witness :
    downsample_points
      [(((0 : ℝ), (0 : ℝ)), (0 : ℝ)), (((1 : ℝ), (1 : ℝ)), (1 : ℝ)),
        (((2 : ℝ), (2 : ℝ)), (2 : ℝ))] 2 =
      some (downsampleSpec
        [(((0 : ℝ), (0 : ℝ)), (0 : ℝ)), (((1 : ℝ), (1 : ℝ)), (1 : ℝ)),
          (((2 : ℝ), (2 : ℝ)), (2 : ℝ))] 2) :=
  (downsample_points_stride _ 2 (by simp) (by norm_num)).1

/-- Membership of a defaulted lookup at a valid index. -/
lemma getD_mem {l : List PointSpeedPair} {k : ℕ} (h : k < l.length) :
    l.getD k default ∈ l := by
  rw [List.getD_eq_getElem?_getD, List.getElem?_eq_getElem h]
  exact List.getElem_mem h

/-- When no remaining point beats the running minimum, the scan keeps the
incoming best index. -/
lemma nearestLoop_all_ge (veh : Point) :
    ∀ (rest : List PointSpeedPair) (i best : ℕ) (minD : ℝ),
      (∀ p ∈ rest, minD ≤ distance2d p.1 veh) →
      nearestLoop veh rest i best minD = best := by
  intro rest
  induction rest with
  | nil => intro i best minD _; rfl
  | cons p tl ih =>
    intro i best minD h
    rw [nearestLoop, if_neg (not_lt.mpr (h p (List.mem_cons_self p tl)))]
    exact ih (i + 1) best minD fun q hq => h q (List.mem_cons_of_mem p hq)

/-- When some remaining point beats the running minimum, the scan returns the
offset of the first remaining point realizing the minimum distance. -/
lemma nearestLoop_found (veh : Point) :
    ∀ (rest : List PointSpeedPair) (i best : ℕ) (minD : ℝ),
      (∃ p ∈ rest, distance2d p.1 veh < minD) →
      ∃ j, j < rest.length ∧ nearestLoop veh rest i best minD = i + j ∧
        distance2d (rest.getD j default).1 veh < minD ∧
        (∀ k, k < rest.length →
          distance2d (rest.getD j default).1 veh ≤
            distance2d (rest.getD k default).1 veh) ∧
        (∀ k, k < j →
          distance2d (rest.getD j default).1 veh <
            distance2d (rest.getD k default).1 veh) := by
  intro rest
  induction rest with
  | nil => rintro i best minD ⟨p, hp, _⟩; simp at hp
  | cons p tl ih =>
    intro i best minD hex
    by_cases hp : distance2d p.1 veh < minD
    · rw [nearestLoop, if_pos hp]
      by_cases htl : ∃ q ∈ tl, distance2d q.1 veh < distance2d p.1 veh
      · obtain ⟨j, hjlen, heq, hlt, hall, hfirst⟩ :=
          ih (i + 1) i (distance2d p.1 veh) htl
        refine ⟨j + 1, by simpa using Nat.succ_lt_succ hjlen, ?_, ?_, ?_, ?_⟩
        · rw [heq]; omega
        · simp only [List.getD_cons_succ]
          exact lt_trans hlt hp
        · intro k hk
          cases k with
          | zero =>
            simp only [List.getD_cons_succ, List.getD_cons_zero]
            exact le_of_lt hlt
          | succ m =>
            simp only [List.getD_cons_succ]
            exact hall m (by simpa using hk)
        · intro k hk
          cases k with
          | zero =>
            simp only [List.getD_cons_succ, List.getD_cons_zero]
            exact hlt
          | succ m =>
            simp only [List.getD_cons_succ]
            exact hfirst m (by omega)
      · push_neg at htl
        rw [nearestLoop_all_ge veh tl (i + 1) i (distance2d p.1 veh) htl]
        refine ⟨0, by simp, by omega, by simpa using hp, ?_, ?_⟩
        · intro k hk
          cases k with
          | zero => simp
          | succ m =>
            simp only [List.getD_cons_succ, List.getD_cons_zero]
            exact htl _ (getD_mem (by simpa using hk))
        · intro k hk
          exact absurd hk (by omega)
    · rw [nearestLoop, if_neg hp]
      have hex' : ∃ q ∈ tl, distance2d q.1 veh < minD := by
        obtain ⟨q, hq, hlt⟩ := hex
        rcases List.mem_cons.mp hq with h1 | h1
        · exact absurd (h1 ▸ hlt) hp
        · exact ⟨q, h1, hlt⟩
      obtain ⟨j, hjlen, heq, hlt, hall, hfirst⟩ := ih (i + 1) best minD hex'
      refine ⟨j + 1, by simpa using Nat.succ_lt_succ hjlen, ?_, ?_, ?_, ?_⟩
      · rw [heq]; omega
      · simp only [List.getD_cons_succ]
        exact hlt
      · intro k hk
        cases k with
        | zero =>
          simp only [List.getD_cons_succ, List.getD_cons_zero]
          exact le_of_lt (lt_of_lt_of_le hlt (not_lt.mp hp))
        | succ m =>
          simp only [List.getD_cons_succ]
          exact hall m (by simpa using hk)
      · intro k hk
        cases k with
        | zero =>
          simp only [List.getD_cons_succ, List.getD_cons_zero]
          exact lt_of_lt_of_le hlt (not_lt.mp hp)
        | succ m =>
          simp only [List.getD_cons_succ]
          exact hfirst m (by omega)

/-- Claim C5, amended: when every path point lies strictly within the largest
finite double of the query position, getNearestPointIndex returns a valid
index whose distance is minimal, and every strictly earlier index is strictly
farther (the first minimizer wins ties). -/
theorem getNearestPointIndex_minimizes (points : List PointSpeedPair)
    (state : VehicleState) (hne : points ≠ [])
    (hfin : ∀ p ∈ points,
      distance2d p.1 (state.X_pos_global, state.Y_pos_global) < doubleMax) :
    getNearestPointIndex points state < points.length ∧
    (∀ k, k < points.length →
      distance2d (points.getD (getNearestPointIndex points state) default).1
          (state.X_pos_global, state.Y_pos_global) ≤
        distance2d (points.getD k default).1
          (state.X_pos_global, state.Y_pos_global)) ∧
    (∀ k, k < getNearestPointIndex points state →
      distance2d (points.getD (getNearestPointIndex points state) default).1
          (state.X_pos_global, state.Y_pos_global) <
        distance2d (points.getD k default).1
          (state.X_pos_global, state.Y_pos_global)) := by
  obtain ⟨p, hp⟩ := List.exists_mem_of_ne_nil points hne
  obtain ⟨j, hjlen, heq, _, hall, hfirst⟩ :=
    nearestLoop_found (state.X_pos_global, state.Y_pos_global) points 0 0
      doubleMax ⟨p, hp, hfin p hp⟩
  have hg : getNearestPointIndex points state = j := by
    rw [getNearestPointIndex, heq]; omega
  rw [hg]
  exact ⟨hjlen, hall, hfirst⟩

/-- The exact value of the initial min_distance sentinel. -/
lemma doubleMax_eq : doubleMax = 2 ^ 1024 - 2 ^ 971 := by
  rw [doubleMax]
  norm_num

/-- Distance between two points on the x axis. -/
lemma distance2d_xaxis (a b : ℝ) : distance2d (a, 0) (b, 0) = |a - b| := by
  rw [distance2d]
  simp [Real.sqrt_sq_eq_abs]

/-- Claim C5, counterexample: with both path points farther from the query
than the largest finite double (as happens in the C++ source whenever the
squared distance overflows to infinity, which is never below the
min_distance sentinel), the scan never updates best_index and returns 0 even
though index 1 is strictly nearer. -/
theorem nearest_point_index_counterexample :
    getNearestPointIndex
        [((-(2 : ℝ) ^ 1023, (0 : ℝ)), (0 : ℝ)),
          ((-((2 : ℝ) ^ 1023 - 2 ^ 960), (0 : ℝ)), (0 : ℝ))]
        ⟨(2 : ℝ) ^ 1023, 0⟩ = 0 ∧
    distance2d (-((2 : ℝ) ^ 1023 - 2 ^ 960), (0 : ℝ)) ((2 : ℝ) ^ 1023, (0 : ℝ)) <
      distance2d (-(2 : ℝ) ^ 1023, (0 : ℝ)) ((2 : ℝ) ^ 1023, (0 : ℝ)) := by
  have hd0 : distance2d (-(2 : ℝ) ^ 1023, (0 : ℝ)) ((2 : ℝ) ^ 1023, (0 : ℝ)) =
      2 ^ 1024 := by
    rw [distance2d_xaxis,
      show -(2 : ℝ) ^ 1023 - 2 ^ 1023 = -(2 ^ 1024) by norm_num,
      abs_neg, abs_of_nonneg (by positivity)]
  have hd1 : distance2d (-((2 : ℝ) ^ 1023 - 2 ^ 960), (0 : ℝ))
      ((2 : ℝ) ^ 1023, (0 : ℝ)) = 2 ^ 1024 - 2 ^ 960 := by
    rw [distance2d_xaxis,
      show -((2 : ℝ) ^ 1023 - 2 ^ 960) - 2 ^ 1023 = -((2 : ℝ) ^ 1024 - 2 ^ 960)
        by norm_num,
      abs_neg, abs_of_nonneg (by norm_num)]
  constructor
  · rw [getNearestPointIndex]
    dsimp only
    simp only [nearestLoop]
    rw [hd0, hd1, doubleMax_eq]
    norm_num
  · rw [hd0, hd1]
    norm_num

/-- The sine of the forward-difference yaw, written with the Euclidean norm of
the difference vector. -/
lemma sin_calculate_yaw (cur next : Point) :
    Real.sin (calculate_yaw cur next) =
      (next.2 - cur.2) /
        Real.sqrt ((next.1 - cur.1) ^ 2 + (next.2 - cur.2) ^ 2) := by
  have h : (next.1 - cur.1) * (next.1 - cur.1) +
      (next.2 - cur.2) * (next.2 - cur.2) =
      (next.1 - cur.1) ^ 2 + (next.2 - cur.2) ^ 2 := by ring
  rw [calculate_yaw, atan2, Complex.sin_arg, Complex.abs_apply,
    Complex.normSq_mk, h]

/-- Unfolding of calculate_curvature with its local bindings inlined. -/
lemma calculate_curvature_eval (cur next : Point) :
    calculate_curvature cur next =
      min (1 / (0.5 *
        (Real.sqrt ((cur.1 - next.1) ^ 2 + (cur.2 - next.1) ^ 2) /
          Real.sin (calculate_yaw cur next)))) 100000 := rfl

/-- The curvature sequence of a two point sampling list. -/
lemma compute_curvature_from_fit_pair (curve : Spline) (a b : Point) :
    compute_curvature_from_fit curve [a, b] =
      some [|calculate_curvature a b|, |calculate_curvature a b|] := by
  simp [compute_curvature_from_fit, List.range_succ]

/-- The orientation sequence of a two point sampling list. -/
lemma compute_orientation_from_fit_pair (curve : Spline) (a b : Point) :
    compute_orientation_from_fit curve [a, b] =
      some [calculate_yaw a b, calculate_yaw a b] := by
  simp [compute_orientation_from_fit, List.range_succ]

/-- Sine of the yaw from (0,0) to (3,4). -/
lemma sin_yaw_three_four :
    Real.sin (calculate_yaw ((0 : ℝ), (0 : ℝ)) (3, 4)) = 4 / 5 := by
  rw [sin_calculate_yaw]
  dsimp only
  rw [show ((3 : ℝ) - 0) ^ 2 + ((4 : ℝ) - 0) ^ 2 = 5 ^ 2 by norm_num,
    Real.sqrt_sq (by norm_num : (0 : ℝ) ≤ 5)]
  norm_num

/-- The source curvature from (0,0) to (3,4): the buggy chord length is
sqrt 18 = 3 sqrt 2 rather than 5, so the value is 4 sqrt 2 / 15. -/
lemma calculate_curvature_three_four :
    calculate_curvature ((0 : ℝ), (0 : ℝ)) (3, 4) = 4 * Real.sqrt 2 / 15 := by
  have h2 : Real.sqrt 2 * Real.sqrt 2 = 2 := Real.mul_self_sqrt (by norm_num)
  have h2pos : 0 < Real.sqrt 2 := Real.sqrt_pos.mpr (by norm_num)
  show min (1 / (0.5 *
      (Real.sqrt (((0 : ℝ) - 3) ^ 2 + ((0 : ℝ) - 3) ^ 2) /
        Real.sin (calculate_yaw ((0 : ℝ), (0 : ℝ)) (3, 4))))) 100000 =
    4 * Real.sqrt 2 / 15
  rw [sin_yaw_three_four,
    show ((0 : ℝ) - 3) ^ 2 + ((0 : ℝ) - 3) ^ 2 = 3 ^ 2 * 2 by norm_num,
    Real.sqrt_mul (by positivity), Real.sqrt_sq (by norm_num : (0 : ℝ) ≤ 3)]
  have hv : (1 : ℝ) / (0.5 * (3 * Real.sqrt 2 / (4 / 5))) =
      4 * Real.sqrt 2 / 15 := by
    rw [div_eq_div_iff (by positivity) (by norm_num)]
    ring_nf
    nlinarith [h2]
  rw [hv]
  exact min_eq_left (by nlinarith [h2, h2pos])

/-- The curvature from (0,0) to (3,4) as claim C1 computes it, with the true
Euclidean chord length 5. -/
lemma claimCurvature_three_four :
    claimCurvature ((0 : ℝ), (0 : ℝ)) (3, 4) = 8 / 25 := by
  show |min (1 / (0.5 *
      (Real.sqrt (((0 : ℝ) - 3) ^ 2 + ((0 : ℝ) - 4) ^ 2) /
        Real.sin (calculate_yaw ((0 : ℝ), (0 : ℝ)) (3, 4))))) 100000| = 8 / 25
  rw [sin_yaw_three_four,
    show ((0 : ℝ) - 3) ^ 2 + ((0 : ℝ) - 4) ^ 2 = 5 ^ 2 by norm_num,
    Real.sqrt_sq (by norm_num : (0 : ℝ) ≤ 5),
    show (1 : ℝ) / (0.5 * (5 / (4 / 5))) = 8 / 25 by norm_num,
    min_eq_left (by norm_num : (8 : ℝ) / 25 ≤ 100000)]
  norm_num

/-- Sine of the yaw of a straight drop along the negative y axis is -1. -/
lemma sin_yaw_degenerate :
    Real.sin (calculate_yaw ((0 : ℝ), 1 / 100000) (0, -1)) = -1 := by
  rw [sin_calculate_yaw]
  dsimp only
  rw [show ((0 : ℝ) - 0) ^ 2 + ((-1 : ℝ) - 1 / 100000) ^ 2 =
      ((-1 : ℝ) - 1 / 100000) ^ 2 by ring,
    Real.sqrt_sq_eq_abs,
    show |(-1 : ℝ) - 1 / 100000| = 1 + 1 / 100000 by
      rw [abs_of_nonpos (by norm_num)]; norm_num]
  norm_num

/-- The source curvature on the degenerate input of claim C2: the buggy chord
length is 1/100000 while sin(yaw) = -1, so min picks 1/r = -200000. -/
lemma calculate_curvature_degenerate :
    calculate_curvature ((0 : ℝ), 1 / 100000) (0, -1) = -200000 := by
  show min (1 / (0.5 *
      (Real.sqrt (((0 : ℝ) - 0) ^ 2 + ((1 : ℝ) / 100000 - 0) ^ 2) /
        Real.sin (calculate_yaw ((0 : ℝ), 1 / 100000) (0, -1))))) 100000 =
    -200000
  rw [sin_yaw_degenerate,
    show ((0 : ℝ) - 0) ^ 2 + ((1 : ℝ) / 100000 - 0) ^ 2 =
      ((1 : ℝ) / 100000) ^ 2 by ring,
    Real.sqrt_sq (by norm_num : (0 : ℝ) ≤ 1 / 100000),
    show (1 : ℝ) / (0.5 * (1 / 100000 / -1)) = -200000 by norm_num,
    min_eq_left (by norm_num : (-200000 : ℝ) ≤ 100000)]

/-- Sine of the yaw from (0,0) to (1,1). -/
lemma sin_yaw_one_one :
    Real.sin (calculate_yaw ((0 : ℝ), (0 : ℝ)) (1, 1)) = 1 / Real.sqrt 2 := by
  rw [sin_calculate_yaw]
  dsimp only
  rw [show ((1 : ℝ) - 0) ^ 2 + ((1 : ℝ) - 0) ^ 2 = 2 by norm_num]
  norm_num

/-- The source curvature from (0,0) to (1,1) is exactly 1. -/
lemma calculate_curvature_one_one :
    calculate_curvature ((0 : ℝ), (0 : ℝ)) (1, 1) = 1 := by
  have h2 : Real.sqrt 2 * Real.sqrt 2 = 2 := Real.mul_self_sqrt (by norm_num)
  have h2pos : 0 < Real.sqrt 2 := Real.sqrt_pos.mpr (by norm_num)
  show min (1 / (0.5 *
      (Real.sqrt (((0 : ℝ) - 1) ^ 2 + ((0 : ℝ) - 1) ^ 2) /
        Real.sin (calculate_yaw ((0 : ℝ), (0 : ℝ)) (1, 1))))) 100000 = 1
  rw [sin_yaw_one_one,
    show ((0 : ℝ) - 1) ^ 2 + ((0 : ℝ) - 1) ^ 2 = 2 by norm_num]
  have hv : (1 : ℝ) / (0.5 * (Real.sqrt 2 / (1 / Real.sqrt 2))) = 1 := by
    have h2ne : Real.sqrt 2 ≠ 0 := ne_of_gt h2pos
    field_simp
    nlinarith [h2]
  rw [hv, min_eq_left (by norm_num : (1 : ℝ) ≤ 100000)]

/-- Claim C1: on the sampling points (0,0), (3,4) the code produces curvature
4 sqrt 2 / 15 at sample 0, because line 161 computes the chord length as
sqrt((x0-x1)^2 + (y0-x1)^2) = sqrt 18; the claim formula, with the Euclidean
distance sqrt((x0-x1)^2 + (y0-y1)^2) = 5, gives 8/25, a different value. -/
theorem curvature_distance_term_bug :
    compute_curvature_from_fit ⟨[], []⟩ [((0 : ℝ), (0 : ℝ)), (3, 4)] =
      some [4 * Real.sqrt 2 / 15, 4 * Real.sqrt 2 / 15] ∧
    claimCurvature ((0 : ℝ), (0 : ℝ)) (3, 4) = 8 / 25 ∧
    (4 * Real.sqrt 2 / 15 : ℝ) ≠ 8 / 25 := by
  have h2 : Real.sqrt 2 * Real.sqrt 2 = 2 := Real.mul_self_sqrt (by norm_num)
  refine ⟨?_, claimCurvature_three_four, ?_⟩
  · rw [compute_curvature_from_fit_pair, calculate_curvature_three_four,
      abs_of_nonneg (by positivity)]
  · intro h
    have hs : Real.sqrt 2 = 6 / 5 := by linarith
    rw [hs] at h2
    norm_num at h2

/-- Claim C2, counterexample: on the sampling points (0, 1/100000), (0, -1)
the curvature sequence contains 200000, which exceeds the 100000 bound the
claim asserts: sin(yaw) = -1 makes 1/r = -200000 slip under the min clamp,
and the final fabs turns it into 200000. -/
theorem curvature_bound_counterexample :
    compute_curvature_from_fit ⟨[], []⟩ [((0 : ℝ), 1 / 100000), (0, -1)] =
      some [200000, 200000] ∧ ¬ ((200000 : ℝ) ≤ 100000) := by
  constructor
  · rw [compute_curvature_from_fit_pair, calculate_curvature_degenerate]
    norm_num
  · norm_num

/-- Membership of a defaulted lookup at a valid index, for any element type. -/
lemma getD_mem_of_lt {α : Type} (l : List α) (k : ℕ) (d : α)
    (h : k < l.length) : l.getD k d ∈ l := by
  rw [List.getD_eq_getElem?_getD, List.getElem?_eq_getElem h]
  exact List.getElem_mem h

/-- Claim C2, amended: every element of any curvature sequence the function
returns is nonnegative (each entry is an absolute value, and the padded last
entry duplicates one of them); the upper bound 100000 of the original claim
does not hold. -/
theorem curvature_sequence_nonneg (curve : Spline) (pts : List Point)
    (l : List ℝ) (h : compute_curvature_from_fit curve pts = some l)
    (x : ℝ) (hx : x ∈ l) : 0 ≤ x := by
  simp only [compute_curvature_from_fit] at h
  split at h
  · exact absurd h (by simp)
  · split at h
    · exact absurd h (by simp)
    · replace h := Option.some.inj h
      rw [← h] at hx
      rcases List.mem_append.mp hx with hx1 | hx1
      · obtain ⟨i, _, rfl⟩ := List.mem_map.mp hx1
        exact abs_nonneg _
      · rw [List.mem_singleton] at hx1
        subst hx1
        have hne : ¬((List.range (pts.length - 1)).map fun i =>
            |calculate_curvature (pts.getD i default)
              (pts.getD (i + 1) default)|) = [] := by assumption
        have hlt : ((List.range (pts.length - 1)).map fun i =>
            |calculate_curvature (pts.getD i default)
              (pts.getD (i + 1) default)|).length - 1 <
            ((List.range (pts.length - 1)).map fun i =>
            |calculate_curvature (pts.getD i default)
              (pts.getD (i + 1) default)|).length := by
          have := List.length_pos.mpr hne
          omega
        have hmem := getD_mem_of_lt _ _ 0 hlt
        obtain ⟨i, _, hxeq⟩ := List.mem_map.mp hmem
        rw [← hxeq]
        exact abs_nonneg _

/-- Witness for curvature_sequence_nonneg on the sampling points
(0,0), (1,1), whose curvature sequence is exactly [1, 1]. -/
theorem curvature_sequence_nonneg_witness :
    compute_curvature_from_fit ⟨[], []⟩ [((0 : ℝ), (0 : ℝ)), (1, 1)] =
      some [1, 1] ∧ (0 : ℝ) ≤ 1 := by
  have he : compute_curvature_from_fit ⟨[], []⟩ [((0 : ℝ), (0 : ℝ)), (1, 1)] =
      some [1, 1] := by
    rw [compute_curvature_from_fit_pair, calculate_curvature_one_one]
    norm_num
  exact ⟨he, curvature_sequence_nonneg ⟨[], []⟩ [((0 : ℝ), (0 : ℝ)), (1, 1)]
    [1, 1] he 1 (by simp)⟩

/-- Lookup at the append point: the appended singleton is read back. -/
lemma getD_last_of_append (l : List ℝ) (b : ℝ) :
    (l ++ [b]).getD l.length 0 = b := by
  induction l with
  | nil => rfl
  | cons a tl ih => simp [ih]

/-- Lookup left of the append point stays in the left list. -/
lemma getD_append_left_of_lt (l l2 : List ℝ) (i : ℕ) (h : i < l.length) :
    (l ++ l2).getD i 0 = l.getD i 0 := by
  induction l generalizing i with
  | nil => simp at h
  | cons a tl ih =>
    cases i with
    | zero => rfl
    | succ m => simpa using ih m (by simpa using h)

/-- Claim C3, counterexample: on a singleton input both estimator functions
abort (the C++ calls back() on the empty freshly built vector), so no
sequence of the input length is returned. -/
theorem fit_sequences_short_input :
    compute_orientation_from_fit ⟨[], []⟩ [((0 : ℝ), (0 : ℝ))] = none ∧
    compute_curvature_from_fit ⟨[], []⟩ [((0 : ℝ), (0 : ℝ))] = none := by
  constructor
  · simp [compute_orientation_from_fit]
  · simp [compute_curvature_from_fit]

/-- Claim C3, amended: for every sampling list with at least two points, both
estimator functions return a sequence of the input length whose final element
equals its second-to-last element. -/
theorem fit_sequences_shape (curve : Spline) (pts : List Point)
    (h : 2 ≤ pts.length) :
    compute_orientation_from_fit curve pts ≠ none ∧
    compute_curvature_from_fit curve pts ≠ none ∧
    ((compute_orientation_from_fit curve pts).getD []).length = pts.length ∧
    ((compute_curvature_from_fit curve pts).getD []).length = pts.length ∧
    ((compute_orientation_from_fit curve pts).getD []).getD (pts.length - 1) 0 =
      ((compute_orientation_from_fit curve pts).getD []).getD (pts.length - 2) 0 ∧
    ((compute_curvature_from_fit curve pts).getD []).getD (pts.length - 1) 0 =
      ((compute_curvature_from_fit curve pts).getD []).getD (pts.length - 2) 0 := by
  have h0 : ¬ pts.length = 0 := by omega
  have hlr : (List.range (pts.length - 1)).length = pts.length - 1 :=
    List.length_range _
  have hrne : ¬ (List.range (pts.length - 1)) = [] := by
    intro hc
    rw [hc] at hlr
    simp at hlr
    omega
  have shape : ∀ (l : List ℝ), l.length = pts.length - 1 →
      (l ++ [l.getD (l.length - 1) 0]).length = pts.length ∧
      (l ++ [l.getD (l.length - 1) 0]).getD (pts.length - 1) 0 =
        (l ++ [l.getD (l.length - 1) 0]).getD (pts.length - 2) 0 := by
    intro l hlen
    constructor
    · simp [hlen]
      omega
    · have e1 : pts.length - 1 = l.length := by omega
      have e2 : pts.length - 2 = l.length - 1 := by omega
      have hllt : l.length - 1 < l.length := by omega
      rw [e1, e2, getD_last_of_append, getD_append_left_of_lt _ _ _ hllt]
  have horient : compute_orientation_from_fit curve pts =
      some (((List.range (pts.length - 1)).map fun i =>
          calculate_yaw (pts.getD i default) (pts.getD (i + 1) default)) ++
        [((List.range (pts.length - 1)).map fun i =>
          calculate_yaw (pts.getD i default) (pts.getD (i + 1) default)).getD
            (((List.range (pts.length - 1)).map fun i =>
              calculate_yaw (pts.getD i default)
                (pts.getD (i + 1) default)).length - 1) 0]) := by
    rw [compute_orientation_from_fit, if_neg h0]
    rw [if_neg (by simpa using hrne)]
  have hcurv : compute_curvature_from_fit curve pts =
      some (((List.range (pts.length - 1)).map fun i =>
          |calculate_curvature (pts.getD i default) (pts.getD (i + 1) default)|) ++
        [((List.range (pts.length - 1)).map fun i =>
          |calculate_curvature (pts.getD i default)
            (pts.getD (i + 1) default)|).getD
            (((List.range (pts.length - 1)).map fun i =>
              |calculate_curvature (pts.getD i default)
                (pts.getD (i + 1) default)|).length - 1) 0]) := by
    rw [compute_curvature_from_fit, if_neg h0]
    rw [if_neg (by simpa using hrne)]
  have hso := shape (((List.range (pts.length - 1)).map fun i =>
      calculate_yaw (pts.getD i default) (pts.getD (i + 1) default)))
    (by simp [hlr])
  have hsc := shape (((List.range (pts.length - 1)).map fun i =>
      |calculate_curvature (pts.getD i default) (pts.getD (i + 1) default)|))
    (by simp [hlr])
  rw [horient, hcurv]
  refine ⟨by simp, by simp, ?_, ?_, ?_, ?_⟩
  · simpa using hso.1
  · simpa using hsc.1
  · simpa using hso.2
  · simpa using hsc.2

/-- Witness for fit_sequences_shape on a two point sampling list. -/
theorem fit_sequences_shape_witness :
    ((compute_orientation_from_fit ⟨[], []⟩
        [((0 : ℝ), (0 : ℝ)), (1, 1)]).getD []).length = 2 ∧
    ((compute_curvature_from_fit ⟨[], []⟩
        [((0 : ℝ), (0 : ℝ)), (1, 1)]).getD []).length = 2 := by
  have h := fit_sequences_shape ⟨[], []⟩ [((0 : ℝ), (0 : ℝ)), (1, 1)]
    (by simp)
  exact ⟨h.2.2.1, h.2.2.2.1⟩

/-- Distance from (3,4) to the origin. -/
lemma distance2d_three_four :
    distance2d ((3 : ℝ), (4 : ℝ)) ((0 : ℝ), (0 : ℝ)) = 5 := by
  rw [distance2d]
  dsimp only
  rw [show ((3 : ℝ) - 0) ^ 2 + ((4 : ℝ) - 0) ^ 2 = 5 ^ 2 by norm_num,
    Real.sqrt_sq (by norm_num : (0 : ℝ) ≤ 5)]

/-- Distance from the origin to itself. -/
lemma distance2d_zero :
    distance2d ((0 : ℝ), (0 : ℝ)) ((0 : ℝ), (0 : ℝ)) = 0 := by
  rw [distance2d]
  dsimp only
  simp

/-- Witness for getNearestPointIndex_minimizes: a two point path whose
distances 5 and 0 are both below the sentinel. -/
theorem getNearestPointIndex_minimizes_witness :
    getNearestPointIndex
      [(((3 : ℝ), (4 : ℝ)), (0 : ℝ)), (((0 : ℝ), (0 : ℝ)), (0 : ℝ))]
      ⟨0, 0⟩ < 2 := by
  have h := getNearestPointIndex_minimizes
    [(((3 : ℝ), (4 : ℝ)), (0 : ℝ)), (((0 : ℝ), (0 : ℝ)), (0 : ℝ))] ⟨0, 0⟩
    (by simp)
    (by
      intro p hp
      simp only [List.mem_cons, List.not_mem_nil, or_false] at hp
      rcases hp with h1 | h1 <;> subst h1 <;> dsimp only
      · rw [distance2d_three_four, doubleMax_eq]
        norm_num
      · rw [distance2d_zero, doubleMax_eq]
        norm_num)
  exact h.1
